import Mathlib

/-!
# A Lean model of `pyled` (src/pyled/device.py, src/pyled/interface.py)

Shallow embedding of the pyled LED-matrix driver.  Python floats are
modelled as rationals (`ℚ`), Python ints as `ℤ`/`ℕ`, byte strings as
`List Nat`, raised exceptions as an explicit `PyErr` error value, and the
serial transport as an oracle value describing the outcome of the single
open/write/read transaction that `Device.execute` performs.
-/

/-! ## Definitions -/

/-- A discovered serial-port descriptor (the fields `Device` reads from it). -/
structure Port where
  device : String
  vid : Nat
  pid : Nat
  deriving DecidableEq, Repr, Inhabited

/-- The state of a `Device` object (src/pyled/device.py, `__init__`):
`self.id`, `self.port`, `self.connected`. -/
structure Device where
  id : Nat
  port : Port
  connected : Bool
  deriving DecidableEq, Repr, Inhabited

/-- `Device.WIDTH` (src/pyled/device.py line 8). -/
def Device.WIDTH : Nat := 9

/-- `Device.HEIGHT` (src/pyled/device.py line 9). -/
def Device.HEIGHT : Nat := 34

/-- Modelled from the spec: the command opcodes of `src/pyled/commands.py`
(imported by both source files but not itself under src/).  Spec sections 4.1
and 6 fix the command set; the concrete one-byte values are not given there,
so the opcodes stay symbolic. -/
inductive CMD where
  | Brightness
  | Draw
  | StageGreyCol
  | DrawGreyColBuffer
  | Sleep
  | Version
  deriving DecidableEq, Repr

/-- One `sconn.write` of `FWK_MAGIC + [cmd] + params`, kept structured:
the fixed two-byte magic prefix is implicit, `cmd` the opcode, `params` the
remaining payload bytes. -/
structure Frame where
  cmd : CMD
  params : List ℤ
  deriving DecidableEq, Repr

/-- Python exceptions raised by the modelled code paths. -/
inductive PyErr where
  /-- `ValueError("Invalid dimensions for the input array")` -/
  | valueError
  /-- `IndexError` from indexing past the end of a bytes/list object -/
  | indexError
  /-- a failed `assert` statement -/
  | assertionError
  /-- `RuntimeError("Device is not connected")` -/
  | runtimeNotConnected
  /-- `raise IOError(f"Error: {ex}")` -/
  | ioError (msg : String)
  /-- `raise RuntimeError(f"Error: {ex}")` -/
  | runtimeError (msg : String)
  deriving DecidableEq, Repr

/-- Outcome of the one serial transaction attempted inside the `try` block of
`Device.execute`: either it succeeds (yielding the bytes a subsequent
`sconn.read` would return), or it raises an `IOError`/`OSError`, or it raises
some other exception. -/
inductive Transport where
  | ok (resp : List Nat)
  | ioError (msg : String)
  | otherError (msg : String)
  deriving DecidableEq, Repr

/-- Result of `Device.execute`: the device state afterwards, the returned
value or raised exception, and how many serial transactions were attempted. -/
structure ExecResult where
  dev : Device
  result : Except PyErr (Option (List Nat))
  attempts : Nat
  deriving Repr

/-- `Device.execute` (src/pyled/device.py lines 50-82).  If the device is not
connected it raises `RuntimeError` before opening anything.  Otherwise exactly
one serial transaction is attempted: on success the response is returned when
`expect_response` is set (`None` otherwise); on `IOError`/`OSError` the device
is disconnected and an `IOError` is raised; on any other exception a
`RuntimeError` is raised with the device state untouched.  No retry. -/
def Device.execute (d : Device) (t : Transport) (expect_response : Bool) : ExecResult :=
  if d.connected = false then
    ⟨d, .error .runtimeNotConnected, 0⟩
  else
    match t with
    | .ok resp => ⟨d, .ok (if expect_response then some resp else none), 1⟩
    | .ioError m => ⟨{ d with connected := false }, .error (.ioError ("Error: " ++ m)), 1⟩
    | .otherError m => ⟨d, .error (.runtimeError ("Error: " ++ m)), 1⟩

/-- Python list/bytes indexing `l[i]`: raises `IndexError` out of range. -/
def pyIndex (l : List Nat) (i : Nat) : Except PyErr Nat :=
  match l[i]? with
  | some v => .ok v
  | none => .error .indexError

/-- The body of the `Device.version` property (src/pyled/device.py lines
186-201) applied to the response bytes `res` (`[]` models both `None` and an
empty response, the two falsy cases of `if not res`):
`major = res[0]`, `minor = (res[1] & 0xF0) >> 4`, `patch = res[1] & 0xF`,
`pre_release = res[2]`, then `"{major}.{minor}.{patch}"` with
`" (Pre-release)"` appended when `pre_release` is truthy (nonzero). -/
def Device.version_decode (res : List Nat) : Except PyErr String := do
  if res.isEmpty then
    return "Unknown"
  let major ← pyIndex res 0
  let b1 ← pyIndex res 1
  let minor := (b1 &&& 0xF0) >>> 4
  let patch := b1 &&& 0xF
  let pre_release ← pyIndex res 2
  let version := s!"{major}.{minor}.{patch}"
  return if pre_release ≠ 0 then version ++ " (Pre-release)" else version

/-- Python `int()` applied to a float (modelled as `ℚ`): truncation toward
zero. -/
def py_int (q : ℚ) : ℤ :=
  if 0 ≤ q then q.floor else -(-q).floor

/-- The per-value byte mapping of `Device.paint` (src/pyled/device.py lines
107-114): `(int(val * (brightness + 1)) if val >= 0 else 0) if val < 1 else
brightness`. -/
def Device.paint_pixel (brightness : ℤ) (val : ℚ) : ℤ :=
  if val < 1 then (if 0 ≤ val then py_int (val * (brightness + 1)) else 0)
  else brightness

/-- The full greyscale mapping `paint` applies: each column's list
comprehension maps every value through the byte mapping (src/pyled/device.py
lines 102-115 stage column `colid` with exactly these values). -/
def Device.paint_values (brightness : ℤ) (array : List (List ℚ)) : List (List ℤ) :=
  array.map fun col => col.map (Device.paint_pixel brightness)

/-- The dimension validation shared by `paint` and `display`
(src/pyled/device.py lines 95-98 and 131-134):
`len(array) != Device.WIDTH or any(len(row) != Device.HEIGHT for row in
array)`. -/
def invalid_dims {α : Type} (array : List (List α)) : Prop :=
  array.length ≠ Device.WIDTH ∨ ∃ row ∈ array, row.length ≠ Device.HEIGHT

instance {α : Type} (array : List (List α)) : Decidable (invalid_dims array) := by
  unfold invalid_dims
  infer_instance

/-- `Device.paint` (src/pyled/device.py lines 84-118) as a state transformer:
validate dimensions, assert the brightness range, then run `paint_image`
through `execute` — staging each of the 9 columns (`send_col`: opcode
`StageGreyCol`, payload column id followed by the mapped values) and
committing (`commit_cols`: opcode `DrawGreyColBuffer`, payload `[0x00]`).
Returns the device state afterwards and either the list of frames written or
the exception raised. -/
def Device.paint_run (d : Device) (array : List (List ℚ)) (brightness : ℤ)
    (t : Transport) : Device × Except PyErr (List Frame) :=
  if invalid_dims array then
    (d, .error .valueError)
  else if ¬(0 ≤ brightness ∧ brightness ≤ 255) then
    (d, .error .assertionError)
  else
    let frames :=
      ((List.range Device.WIDTH).map fun colid =>
        Frame.mk .StageGreyCol
          (Int.ofNat colid :: (array.getD colid []).map (Device.paint_pixel brightness))) ++
      [Frame.mk .DrawGreyColBuffer [0]]
    let r := Device.execute d t false
    match r.result with
    | .error e => (r.dev, .error e)
    | .ok _ => (r.dev, .ok frames)

/-- Row-major flattening `[a for ar in array for a in ar]`
(src/pyled/device.py line 137). -/
def flatten_array (array : List (List Bool)) : List Bool :=
  array.flatten

/-- The packing loop of `Device.display` (src/pyled/device.py lines 136-139):
`for i, v in enumerate(flat): if v: vals[int(i / 8)] |= 1 << i % 8`. -/
def pack_loop : List Nat → Nat → List Bool → List Nat
  | vals, _, [] => vals
  | vals, i, v :: rest =>
    pack_loop
      (if v then vals.set (i / 8) (vals.getD (i / 8) 0 ||| 1 <<< (i % 8)) else vals)
      (i + 1) rest

/-- The 39 payload bytes `Device.display` computes from the boolean matrix:
`vals = [0] * 39` then the packing loop over the row-major flattening. -/
def Device.display_vals (array : List (List Bool)) : List Nat :=
  pack_loop (List.replicate 39 0) 0 (flatten_array array)

/-- Unpacking the 39 bytes back into a 9×34 matrix, following the claim's
description of the packing: pixel `i` of the row-major flattening is bit
`i % 8` of byte `i / 8`. -/
def unpack_vals (vals : List Nat) : List (List Bool) :=
  (List.range Device.WIDTH).map fun c =>
    (List.range Device.HEIGHT).map fun r =>
      Nat.testBit (vals.getD ((Device.HEIGHT * c + r) / 8) 0) ((Device.HEIGHT * c + r) % 8)

/-- `Device.display` (src/pyled/device.py lines 120-142) as a state
transformer: validate dimensions, pack the matrix, send one `Draw` command
with the 39 bytes, then `self.brightness(brightness)` — an assert on the
range followed by a separate `Brightness` command.  The two commands are two
separate `execute` transactions, hence two transport oracles. -/
def Device.display_run (d : Device) (array : List (List Bool)) (brightness : ℤ)
    (t1 t2 : Transport) : Device × Except PyErr (List Frame) :=
  if invalid_dims array then
    (d, .error .valueError)
  else
    let vals := Device.display_vals array
    let r1 := Device.execute d t1 false
    match r1.result with
    | .error e => (r1.dev, .error e)
    | .ok _ =>
      if ¬(0 ≤ brightness ∧ brightness ≤ 255) then
        (r1.dev, .error .assertionError)
      else
        let r2 := Device.execute r1.dev t2 false
        match r2.result with
        | .error e => (r2.dev, .error e)
        | .ok _ =>
          (r2.dev, .ok [Frame.mk .Draw (vals.map Int.ofNat),
                        Frame.mk .Brightness [brightness]])

/-- Modelled from the spec: `Device.animate` (spec section 4.2; called by
`Interface.animate` at src/pyled/interface.py line 93 but absent from
src/pyled/device.py).  Wall-clock pacing abstracted away; we record the
sequence of keyword-argument sets the loop dispatches to the rendering
method: the generator is called at frame indices 0, 1, ... until
`total_frames` frames have been displayed, stopping immediately when it
yields no data for an index. -/
def Device.animate_renders {α : Type} (frames : Nat → Option α) : Nat → Nat → List α
  | _, 0 => []
  | idx, rem + 1 =>
    match frames idx with
    | none => []
    | some kwargs => kwargs :: Device.animate_renders frames (idx + 1) rem

/-- `Interface.animate` (src/pyled/interface.py lines 73-93):
`self.devices[id].animate(method, frames, fps, ntimes, brightness)` — an
index dispatch to the addressed device's animation loop. -/
def Interface.animate_run {α : Type} (devs : List Device) (id : Nat)
    (frames : Nat → Option α) (ntimes : Nat) : Except PyErr (List α) :=
  match devs[id]? with
  | none => .error .indexError
  | some _ => .ok (Device.animate_renders frames 0 ntimes)

/-- `del dev` on a `for`-loop variable (src/pyled/interface.py lines 57-59)
unbinds the local name only: the Device object — still referenced by
`self.devices` — is untouched, and since `Device` defines no `__del__`
(src/pyled/device.py lines 5-212), nothing is disconnected and no frame (in
particular no Brightness-0 frame) is written. -/
def Interface.del_device (d : Device) : Device × List Frame :=
  (d, [])

/-- `Interface.__del__` (src/pyled/interface.py lines 57-59):
`for dev in self.devices: del dev`.  Returns the device states afterwards and
every frame written during teardown. -/
def Interface.del_run (devs : List Device) : List Device × List Frame :=
  (devs.map fun d => (Interface.del_device d).1,
   devs.flatMap fun d => (Interface.del_device d).2)

/-- One positional argument of the call `Device(i, port, keep_alive)`. -/
inductive InitArg where
  | nat (n : Nat)
  | port (p : Port)
  | bool (b : Bool)
  deriving DecidableEq, Repr

/-- A Python positional call to `Device.__init__` (src/pyled/device.py lines
42-45): the signature `def __init__(self, id: int, port)` accepts exactly two
arguments besides `self` (an int id and a port descriptor); any other
argument list raises `TypeError` before the body runs. -/
def Device.init_call (args : List InitArg) : Except String Device :=
  match args with
  | [.nat i, .port p] => .ok ⟨i, p, true⟩
  | _ => .error "TypeError"

/-- `Interface.__init__` (src/pyled/interface.py lines 7-10): builds
`Device(i, port, keep_alive)` for each discovered port — a call with THREE
positional arguments. -/
def Interface.init (ports : List Port) (keep_alive : Bool) : Except String (List Device) :=
  (ports.enum.map fun ip => Device.init_call [.nat ip.1, .port ip.2, .bool keep_alive]).mapM id

/-- Round half up on `ℚ` (the generic reading of the spec's `round`). -/
def rat_round (q : ℚ) : ℤ :=
  (q + 1 / 2).floor

/-- The byte mapping C1 ascribes to `paint`, following the claim's words:
`v < 0 ↦ 0`; `0 ≤ v < 1 ↦ round(v*(b+1))` clamped within `[0, b]`;
`v ≥ 1 ↦ b`. -/
def paint_pixel_claim (brightness : ℤ) (val : ℚ) : ℤ :=
  if val < 0 then 0
  else if val < 1 then min brightness (max 0 (rat_round (val * (brightness + 1))))
  else brightness

/-- `Interface.remap` (src/pyled/interface.py lines 67-71):
`self.devices = self.devices[::-1]`. -/
def Interface.remap (devs : List Device) : List Device :=
  devs.reverse

/-! ## Helper lemmas -/

lemma rat_floor_eq_floor (q : ℚ) : q.floor = ⌊q⌋ := rfl

lemma paint_pixel_at_example : Device.paint_pixel 9 (57 / 100) = 5 := by
  rw [Device.paint_pixel, if_pos (by norm_num), if_pos (by norm_num), py_int,
    if_pos (by norm_num), rat_floor_eq_floor]
  norm_num

set_option maxRecDepth 4096 in
lemma and_hi_nibble_eq : ∀ b < 256, (b &&& 0xF0) >>> 4 = b / 16 := by
  decide

/-- One iteration of the packing loop, seen through `testBit`: bit `b` of byte
`j` is set afterwards iff it was set before, or the processed pixel is true
and sits at absolute bit position `8 * j + b`. -/
lemma set_step_testBit (vals : List Nat) (i j b : Nat) (v : Bool) (hb : b < 8)
    (hj : j < vals.length) :
    (Nat.testBit
      ((if v then vals.set (i / 8) (vals.getD (i / 8) 0 ||| 1 <<< (i % 8)) else vals).getD j 0)
      b = true ↔
     Nat.testBit (vals.getD j 0) b = true ∨ (v = true ∧ i = 8 * j + b)) := by
  cases v with
  | false => simp
  | true =>
    rw [if_pos rfl]
    by_cases hij : i / 8 = j
    · subst hij
      rw [List.getD_eq_getElem?_getD, List.getElem?_set_self hj, Option.getD_some,
        Nat.testBit_or, Nat.one_shiftLeft, Nat.testBit_two_pow, Bool.or_eq_true,
        decide_eq_true_eq]
      constructor
      · rintro (h | h)
        · exact Or.inl h
        · exact Or.inr ⟨rfl, by omega⟩
      · rintro (h | ⟨-, h⟩)
        · exact Or.inl h
        · exact Or.inr (by omega)
    · rw [List.getD_eq_getElem?_getD, List.getElem?_set_ne hij]
      rw [← List.getD_eq_getElem?_getD]
      constructor
      · exact Or.inl
      · rintro (h | ⟨-, h⟩)
        · exact h
        · exfalso; omega

/-- Invariant of the whole packing loop: after processing the pixels `l`
starting at absolute position `i`, bit `b` of byte `j` is set iff it was set
in the initial buffer or some true pixel of `l` sits at position `8*j + b`. -/
lemma pack_loop_testBit (l : List Bool) : ∀ (vals : List Nat) (i j b : Nat), b < 8 →
    j < vals.length →
    (Nat.testBit ((pack_loop vals i l).getD j 0) b = true ↔
     Nat.testBit (vals.getD j 0) b = true ∨
       ∃ k, k < l.length ∧ l.getD k false = true ∧ i + k = 8 * j + b) := by
  induction l with
  | nil =>
    intro vals i j b hb hj
    simp [pack_loop]
  | cons v rest ih =>
    intro vals i j b hb hj
    rw [pack_loop]
    have hlen : (if v then vals.set (i / 8) (vals.getD (i / 8) 0 ||| 1 <<< (i % 8)) else vals).length
        = vals.length := by cases v <;> simp
    rw [ih _ (i + 1) j b hb (by rw [hlen]; exact hj), set_step_testBit vals i j b v hb hj]
    constructor
    · rintro ((h | ⟨hv, hi⟩) | ⟨k, hk, hget, hik⟩)
      · exact Or.inl h
      · exact Or.inr ⟨0, by simp, by simpa using hv, by omega⟩
      · exact Or.inr ⟨k + 1, by simpa using hk, by simpa using hget, by omega⟩
    · rintro (h | ⟨k, hk, hget, hik⟩)
      · exact Or.inl (Or.inl h)
      · match k, hk, hget, hik with
        | 0, _, hget, hik =>
          exact Or.inl (Or.inr ⟨by simpa using hget, by omega⟩)
        | k' + 1, hk, hget, hik =>
          exact Or.inr ⟨k', by simpa using hk, by simpa using hget, by omega⟩

lemma flatten_array_length (array : List (List Bool)) (h9 : array.length = 9)
    (h34 : ∀ row ∈ array, row.length = 34) : (flatten_array array).length = 306 := by
  have hmap : array.map List.length = List.replicate 9 34 := by
    rw [List.eq_replicate_iff]
    refine ⟨by simpa using h9, ?_⟩
    intro b hb
    rcases List.mem_map.mp hb with ⟨row, hrow, rfl⟩
    exact h34 row hrow
  rw [flatten_array, List.length_flatten, hmap]
  rfl

lemma flatten_array_getD (array : List (List Bool)) :
    ∀ (c : Nat), (∀ row ∈ array, row.length = 34) → ∀ (r : Nat), c < array.length → r < 34 →
      (flatten_array array).getD (34 * c + r) false = (array.getD c []).getD r false := by
  induction array with
  | nil => intro c _ r hc _; exact absurd hc (by simp)
  | cons row rest ih =>
    intro c h34 r hc hr
    have hrow : row.length = 34 := h34 row (by simp)
    match c with
    | 0 =>
      rw [flatten_array, List.flatten_cons]
      rw [List.getD_eq_getElem?_getD, List.getElem?_append_left (by omega),
        ← List.getD_eq_getElem?_getD]
      simp
    | c' + 1 =>
      rw [flatten_array, List.flatten_cons]
      have hle : row.length ≤ 34 * (c' + 1) + r := by omega
      rw [List.getD_eq_getElem?_getD, List.getElem?_append_right hle,
        ← List.getD_eq_getElem?_getD]
      have harith : 34 * (c' + 1) + r - row.length = 34 * c' + r := by omega
      rw [harith]
      have hrec := ih c' (fun w hw => h34 w (by simp [hw])) r (by simpa using hc) hr
      rw [flatten_array] at hrec
      rw [hrec]
      simp

lemma and_lo_nibble_eq (b : Nat) : b &&& 0xF = b % 16 :=
  Nat.and_pow_two_sub_one_eq_mod b 4

/-! ## The claims -/

/-- C1 as stated is false: `paint` truncates (`int()`), it does not round.
At brightness 9 and value 0.57 the code stages byte 5 (`int(5.7)`), while the
claim's `round(5.7) = 6` — already clamped within `[0, 9]` — demands 6; shown
on the full 9×34 matrix constantly 0.57. -/
theorem paint_pixel_counterexample :
    ((Device.paint_values 9 (List.replicate 9 (List.replicate 34 (57 / 100)))).getD 0 []).getD 0 0
      = 5 ∧
    paint_pixel_claim 9 (57 / 100) = 6 ∧
    Device.paint_pixel 9 (57 / 100) ≠ paint_pixel_claim 9 (57 / 100) := by
  have hclaim : paint_pixel_claim 9 (57 / 100) = 6 := by
    rw [paint_pixel_claim, if_neg (by norm_num), if_pos (by norm_num), rat_round,
      rat_floor_eq_floor]
    norm_num
  refine ⟨?_, hclaim, ?_⟩
  · rw [Device.paint_values, List.map_replicate, List.map_replicate, paint_pixel_at_example]
    rfl
  · rw [paint_pixel_at_example, hclaim]
    decide

/-- C1 amended: for brightness `b ∈ [0, 255]`, `paint` maps `v < 0` to 0,
`0 ≤ v < 1` to the TRUNCATION `⌊v*(b+1)⌋` — which always already lies in
`[0, b]`, no clamping needed — and `v ≥ 1` to exactly `b`. -/
theorem paint_pixel_maps (b : ℤ) (v : ℚ) (hb0 : 0 ≤ b) (hb1 : b ≤ 255) :
    (v < 0 → Device.paint_pixel b v = 0) ∧
    (0 ≤ v → v < 1 →
      Device.paint_pixel b v = ⌊v * ((b : ℚ) + 1)⌋ ∧
      0 ≤ Device.paint_pixel b v ∧ Device.paint_pixel b v ≤ b) ∧
    (1 ≤ v → Device.paint_pixel b v = b) := by
  refine ⟨?_, ?_, ?_⟩
  · intro hv
    have h1 : v < 1 := lt_of_lt_of_le hv (by norm_num)
    simp [Device.paint_pixel, h1, not_le.mpr hv]
  · intro hv0 hv1
    have hbq : (0 : ℚ) < (b : ℚ) + 1 := by
      have : (0 : ℚ) ≤ (b : ℚ) := by exact_mod_cast hb0
      linarith
    have harg : 0 ≤ v * ((b : ℚ) + 1) := mul_nonneg hv0 (le_of_lt hbq)
    have heq : Device.paint_pixel b v = ⌊v * ((b : ℚ) + 1)⌋ := by
      rw [Device.paint_pixel, if_pos hv1, if_pos hv0, py_int, if_pos harg,
        rat_floor_eq_floor]
    refine ⟨heq, ?_, ?_⟩
    · rw [heq]
      exact Int.floor_nonneg.mpr harg
    · rw [heq]
      have hlt : v * ((b : ℚ) + 1) < (b : ℚ) + 1 := by
        calc v * ((b : ℚ) + 1) < 1 * ((b : ℚ) + 1) := mul_lt_mul_of_pos_right hv1 hbq
          _ = (b : ℚ) + 1 := one_mul _
      have hfl : ⌊v * ((b : ℚ) + 1)⌋ < b + 1 := by
        apply Int.floor_lt.mpr
        push_cast
        exact hlt
      omega
  · intro hv
    simp [Device.paint_pixel, not_lt.mpr hv]

/-- Witness for C1's amended statement at `b = 9`, `v = 0.57`. -/
theorem paint_pixel_maps_witness :
    Device.paint_pixel 9 (57 / 100) = ⌊(57 : ℚ) / 100 * ((9 : ℤ) + 1 : ℚ)⌋ ∧
    0 ≤ Device.paint_pixel 9 (57 / 100) ∧ Device.paint_pixel 9 (57 / 100) ≤ 9 :=
  (paint_pixel_maps 9 (57 / 100) (by decide) (by decide)).2.1 (by norm_num) (by norm_num)

/-- C2: for every 9×34 boolean matrix, `display`'s packing into 39 bytes sets
bit `i % 8` of byte `i / 8` exactly when pixel `i` of the row-major
flattening is true, and unpacking the 39 bytes by that rule reproduces the
matrix exactly (the packing is invertible). -/
theorem display_pack_roundtrip (array : List (List Bool))
    (h9 : array.length = 9) (h34 : ∀ row ∈ array, row.length = 34) :
    (∀ i, i < 306 →
      Nat.testBit ((Device.display_vals array).getD (i / 8) 0) (i % 8) =
        (flatten_array array).getD i false) ∧
    unpack_vals (Device.display_vals array) = array := by
  have hlen := flatten_array_length array h9 h34
  have hchar : ∀ i, i < 306 →
      Nat.testBit ((Device.display_vals array).getD (i / 8) 0) (i % 8) =
        (flatten_array array).getD i false := by
    intro i hi
    have hmain := pack_loop_testBit (flatten_array array) (List.replicate 39 0) 0
      (i / 8) (i % 8) (by omega) (by simp; omega)
    have hinit : ((List.replicate 39 0 : List Nat).getD (i / 8) 0) = 0 := by
      rw [List.getD_eq_getElem?_getD, List.getElem?_replicate]
      split <;> rfl
    rw [hinit, Nat.zero_testBit] at hmain
    have hiff : Nat.testBit ((Device.display_vals array).getD (i / 8) 0) (i % 8) = true ↔
        (flatten_array array).getD i false = true := by
      rw [Device.display_vals, hmain]
      constructor
      · rintro (h | ⟨k, hk, hget, hik⟩)
        · exact absurd h (by simp)
        · have : k = i := by omega
          rw [← this]
          exact hget
      · intro h
        exact Or.inr ⟨i, by omega, h, by omega⟩
    rw [Bool.eq_iff_iff]
    exact hiff
  refine ⟨hchar, ?_⟩
  apply List.ext_getElem
  · simp [unpack_vals, Device.WIDTH, h9]
  · intro c hc1 hc2
    have hc9 : c < 9 := by simpa [unpack_vals, Device.WIDTH] using hc1
    simp only [unpack_vals, List.getElem_map, List.getElem_range]
    apply List.ext_getElem
    · simp [Device.HEIGHT, h34 array[c] (List.getElem_mem hc2)]
    · intro r hr1 hr2
      have hr34 : r < 34 := by simpa [Device.HEIGHT] using hr1
      simp only [List.getElem_map, List.getElem_range]
      have hH : Device.HEIGHT = 34 := rfl
      rw [hH]
      have hi : 34 * c + r < 306 := by omega
      rw [hchar (34 * c + r) hi]
      rw [flatten_array_getD array c h34 r (by omega) hr34]
      have h1 : array.getD c [] = array[c] := by
        rw [List.getD_eq_getElem?_getD, List.getElem?_eq_getElem hc2, Option.getD_some]
      rw [h1, List.getD_eq_getElem?_getD, List.getElem?_eq_getElem hr2, Option.getD_some]

/-- Witness for C2 at the concrete all-on 9×34 matrix. -/
theorem display_pack_roundtrip_witness :
    unpack_vals (Device.display_vals (List.replicate 9 (List.replicate 34 true))) =
      List.replicate 9 (List.replicate 34 true) :=
  (display_pack_roundtrip (List.replicate 9 (List.replicate 34 true)) (by simp)
    (by intro row hrow; rw [(List.mem_replicate.mp hrow).2]; simp)).2

/-- C3 (spec-modelled `Device.animate`): for every device list, every valid
device id and every frame generator, `animate` with `ntimes = 0` dispatches
zero rendering calls and returns without error. -/
theorem animate_zero_frames {α : Type} (devs : List Device) (id : Nat)
    (frames : Nat → Option α) (h : id < devs.length) :
    Interface.animate_run devs id frames 0 = .ok [] := by
  rw [Interface.animate_run, List.getElem?_eq_getElem h]
  rfl

/-- Witness for C3 at a concrete device list and generator. -/
theorem animate_zero_frames_witness :
    Interface.animate_run [⟨0, ⟨"COM3", 0x32AC, 0x20⟩, true⟩] 0
      (fun _ => some ([[true]] : List (List Bool))) 0 = .ok [] :=
  animate_zero_frames _ 0 _ (by decide)

/-- C4: with at least one discovered port, `Interface.__init__` raises
`TypeError` (it passes three arguments to the two-argument
`Device.__init__`); with no discovered ports the construction succeeds
with an empty device list. -/
theorem interface_init_type_error (ports : List Port) (keep_alive : Bool) :
    (ports ≠ [] → Interface.init ports keep_alive = .error "TypeError") ∧
    Interface.init [] keep_alive = .ok [] := by
  constructor
  · intro hne
    match ports with
    | [] => exact absurd rfl hne
    | p :: rest => rfl
  · rfl

/-- Witness for C4 at a concrete one-port list. -/
theorem interface_init_type_error_witness :
    Interface.init [⟨"COM3", 0x32AC, 0x20⟩] true = .error "TypeError" :=
  (interface_init_type_error [⟨"COM3", 0x32AC, 0x20⟩] true).1 (by decide)

/-- C5: starting from a connected device, an `IOError`/`OSError` raised by the
transport marks the device disconnected (only the `connected` flag changes)
and surfaces as the distinguished `IOError`; any other exception surfaces as a
generic `RuntimeError` with the device state untouched; in both cases exactly
one transaction was attempted (no retry). -/
theorem execute_error_handling (d : Device) (m : String) (expect_response : Bool)
    (h : d.connected = true) :
    (Device.execute d (.ioError m) expect_response =
      ⟨{ d with connected := false }, .error (.ioError ("Error: " ++ m)), 1⟩) ∧
    (Device.execute d (.otherError m) expect_response =
      ⟨d, .error (.runtimeError ("Error: " ++ m)), 1⟩) := by
  constructor <;> simp [Device.execute, h]

/-- Witness for C5 at a concrete connected device. -/
theorem execute_error_handling_witness :
    Device.execute ⟨0, ⟨"COM3", 1, 2⟩, true⟩ (.ioError "boom") false =
      ⟨⟨0, ⟨"COM3", 1, 2⟩, false⟩, .error (.ioError "Error: boom"), 1⟩ :=
  (execute_error_handling ⟨0, ⟨"COM3", 1, 2⟩, true⟩ "boom" false rfl).1

/-- C6: version decoding — the two concrete examples, the empty-response case,
and the general shape: for any response of at least three bytes with byte 1
below 256, byte 0 is the major, the high nibble of byte 1 (its quotient by 16)
the minor, the low nibble (its remainder mod 16) the patch, and
`" (Pre-release)"` is appended exactly when byte 2 is nonzero. -/
theorem version_decode_spec :
    Device.version_decode [1, 0x23, 1] = .ok "1.2.3 (Pre-release)" ∧
    Device.version_decode [1, 0x23, 0] = .ok "1.2.3" ∧
    Device.version_decode [] = .ok "Unknown" ∧
    (∀ (a b c : Nat) (rest : List Nat), b < 256 →
      Device.version_decode (a :: b :: c :: rest) =
        .ok (if c ≠ 0 then s!"{a}.{b / 16}.{b % 16}" ++ " (Pre-release)"
             else s!"{a}.{b / 16}.{b % 16}")) := by
  refine ⟨by rfl, by rfl, by rfl, ?_⟩
  intro a b c rest hb
  have h1 := and_hi_nibble_eq b hb
  have h2 := and_lo_nibble_eq b
  simp only [Device.version_decode, pyIndex, List.isEmpty_cons, List.getElem?_cons_zero,
    List.getElem?_cons_succ, h1, h2, Bind.bind, Except.bind, Bool.false_eq_true,
    if_false, pure, Except.pure]

/-- Witness for C6 (the last conjunct has hypotheses) at a concrete response. -/
theorem version_decode_spec_witness :
    Device.version_decode [2, 0x45, 0, 7] = .ok "2.4.5" := by
  have h := version_decode_spec.2.2.2 2 0x45 0 [7] (by decide)
  simpa using h

/-- C7 fails on the code: a one-byte (or two-byte) response is not treated as
absence of data — `res[1]` (resp. `res[2]`) raises `IndexError`. -/
theorem version_decode_short_counterexample :
    Device.version_decode [1] = .error .indexError ∧
    Device.version_decode [1, 0x23] = .error .indexError := by
  constructor <;> rfl

/-- C7 amended: only a response with NO bytes is treated as absence of data
(returning "Unknown"); a response of one or two bytes makes the version query
fail with `IndexError`. -/
theorem version_decode_short (res : List Nat) :
    (res = [] → Device.version_decode res = .ok "Unknown") ∧
    (res.length = 1 ∨ res.length = 2 → Device.version_decode res = .error .indexError) := by
  constructor
  · rintro rfl; rfl
  · intro hlen
    match res, hlen with
    | [a], _ => rfl
    | [a, b], _ => rfl

/-- Witness for C7's amended statement at concrete responses. -/
theorem version_decode_short_witness :
    Device.version_decode [] = .ok "Unknown" ∧
    Device.version_decode [5] = .error .indexError := by
  exact ⟨(version_decode_short []).1 rfl, (version_decode_short [5]).2 (Or.inl rfl)⟩

/-- C8 names behavior the code does not have: `Interface.__del__` only `del`s
its loop variable, `Device` has no `__del__`, so teardown of an interface
holding one connected device leaves the device connected and writes no frame
at all — in particular no Brightness-0 reset and no disconnection. -/
theorem interface_del_noop :
    Interface.del_run [⟨0, ⟨"COM3", 0x32AC, 0x20⟩, true⟩] =
      ([⟨0, ⟨"COM3", 0x32AC, 0x20⟩, true⟩], []) :=
  rfl

/-- C9: any matrix failing the 9×34 shape check makes both `paint` and
`display` raise `ValueError` with the device state unchanged and — whatever
the transport would have done — no I/O performed (the outcome does not depend
on the transport oracles, and no frame is written). -/
theorem dims_rejected (d : Device) (arrF : List (List ℚ)) (arrB : List (List Bool))
    (brightness : ℤ) (t t1 t2 : Transport)
    (hF : invalid_dims arrF) (hB : invalid_dims arrB) :
    Device.paint_run d arrF brightness t = (d, .error .valueError) ∧
    Device.display_run d arrB brightness t1 t2 = (d, .error .valueError) := by
  constructor
  · rw [Device.paint_run, if_pos hF]
  · rw [Device.display_run, if_pos hB]

/-- Witness for C9 at a concrete malformed 1×1 matrix shape. -/
theorem dims_rejected_witness :
    Device.paint_run ⟨0, ⟨"COM3", 1, 2⟩, true⟩ [[0]] 255 (.ok []) =
      (⟨0, ⟨"COM3", 1, 2⟩, true⟩, .error .valueError) ∧
    Device.display_run ⟨0, ⟨"COM3", 1, 2⟩, true⟩ [[true]] 255 (.ok []) (.ok []) =
      (⟨0, ⟨"COM3", 1, 2⟩, true⟩, .error .valueError) :=
  dims_rejected ⟨0, ⟨"COM3", 1, 2⟩, true⟩ [[0]] [[true]] 255 (.ok []) (.ok []) (.ok [])
    (by decide) (by decide)

/-- C10: a single `remap` reverses the device order; applying it twice
restores the original order; the device objects themselves (hence their
underlying port associations) are exactly the original ones. -/
theorem remap_involutive_and_order_reversing (devs : List Device) :
    Interface.remap (Interface.remap devs) = devs ∧
    (Interface.remap devs).length = devs.length ∧
    (∀ i, i < devs.length →
      (Interface.remap devs)[i]? = devs[devs.length - 1 - i]?) ∧
    (∀ d : Device, d ∈ Interface.remap devs ↔ d ∈ devs) := by
  refine ⟨List.reverse_reverse devs, List.length_reverse devs, ?_, fun d => List.mem_reverse⟩
  intro i hi
  rw [Interface.remap, List.getElem?_reverse (by simpa using hi)]

/-- Witness for C10 at a concrete two-device list. -/
theorem remap_involutive_and_order_reversing_witness :
    Interface.remap (Interface.remap [⟨0, ⟨"a", 1, 2⟩, true⟩, ⟨1, ⟨"b", 1, 2⟩, true⟩]) =
      [⟨0, ⟨"a", 1, 2⟩, true⟩, ⟨1, ⟨"b", 1, 2⟩, true⟩] ∧
    (Interface.remap [(⟨0, ⟨"a", 1, 2⟩, true⟩ : Device), ⟨1, ⟨"b", 1, 2⟩, true⟩])[0]? =
      [(⟨0, ⟨"a", 1, 2⟩, true⟩ : Device), ⟨1, ⟨"b", 1, 2⟩, true⟩][1]? := by
  have h := remap_involutive_and_order_reversing
    [⟨0, ⟨"a", 1, 2⟩, true⟩, ⟨1, ⟨"b", 1, 2⟩, true⟩]
  exact ⟨h.1, h.2.2.1 0 (by decide)⟩
